import Mathlib

/-!
Verification of the halgo HAL client library: link-set (de)serialization,
URI-template expansion, navigator path resolution, request building, and
the header-sharing discipline of chained navigator values.

Go source is embedded shallowly: JSON bytes are modelled as either
syntactically malformed or a well-formed JSON value tree; Go maps are
association lists; fallible Go functions return `Except`; the mutable
`http.Header` maps reachable through shared pointers are modelled with an
explicit store of header cells addressed by natural-number references.
-/

set_option maxHeartbeats 1000000

namespace Halgo

/-- A JSON value, the result of parsing syntactically valid JSON text
(Go `encoding/json` input after the scanner accepted it). Object fields
are kept in textual order. -/
inductive Json where
  | null
  | bool (b : Bool)
  | num (n : Int)
  | str (s : String)
  | arr (elems : List Json)
  | obj (fields : List (String × Json))

/-- Raw bytes handed to an `UnmarshalJSON` method: either syntactically
invalid JSON (Go returns a `*json.SyntaxError`) or a well-formed value. -/
inductive Bytes where
  | malformed
  | wellFormed (j : Json)

/-- The `Link` struct of the HAL model (source: the `Link` type with json
tags `href`, `templated,omitempty`, `type,omitempty`, `deprecation,omitempty`,
`name,omitempty`, `profile,omitempty`, `title,omitempty`, `hreflang,omitempty`). -/
structure Link where
  href : String := ""
  templated : Bool := false
  type : String := ""
  deprecation : String := ""
  name : String := ""
  profile : String := ""
  title : String := ""
  hrefLang : String := ""
  deriving DecidableEq, Repr, Inhabited

/-- Go map indexing / JSON object field lookup over an association list. -/
def assocLookup {α : Type} (k : String) : List (String × α) → Option α
  | [] => none
  | (k', v) :: rest => if k' = k then some v else assocLookup k rest

/-- Errors Go `json.Unmarshal` reports when decoding a well-formed JSON
value into a typed target: on struct and slice targets every such failure
is a `*json.UnmarshalTypeError` (a shape/type mismatch). -/
inductive DecErr where
  | typeMismatch
  deriving DecidableEq, Repr

/-- Errors surfaced by `LinkSet.UnmarshalJSON`: a syntax error from the
scanner, or a type error from decoding. -/
inductive UErr where
  | parseFailure
  | decode (e : DecErr)
  deriving DecidableEq, Repr

/-- Decode a JSON string field of a Go struct: absent and `null` leave the
zero value, a string is taken verbatim, anything else is a type error.
(Encoders in this development never emit duplicate keys, so first-match
lookup coincides with Go's last-wins rule.) -/
def getStrField (fs : List (String × Json)) (key : String) : Except DecErr String :=
  match assocLookup key fs with
  | none => .ok ""
  | some .null => .ok ""
  | some (.str s) => .ok s
  | some _ => .error .typeMismatch

/-- Decode a JSON bool field of a Go struct, as `getStrField`. -/
def getBoolField (fs : List (String × Json)) (key : String) : Except DecErr Bool :=
  match assocLookup key fs with
  | none => .ok false
  | some .null => .ok false
  | some (.bool b) => .ok b
  | some _ => .error .typeMismatch

/-- Go `json.Unmarshal` of a well-formed JSON value into a `Link` struct:
`null` is a no-op leaving the zero value, an object decodes field-wise
(unknown fields ignored), any other shape is an `UnmarshalTypeError`. -/
def decodeLink (j : Json) : Except DecErr Link :=
  match j with
  | .null => .ok {}
  | .obj fs =>
    match getStrField fs "href", getBoolField fs "templated", getStrField fs "type",
          getStrField fs "deprecation", getStrField fs "name", getStrField fs "profile",
          getStrField fs "title", getStrField fs "hreflang" with
    | .ok h, .ok t, .ok ty, .ok d, .ok nm, .ok p, .ok ti, .ok hl =>
        .ok { href := h, templated := t, type := ty, deprecation := d,
              name := nm, profile := p, title := ti, hrefLang := hl }
    | _, _, _, _, _, _, _, _ => .error .typeMismatch
  | _ => .error .typeMismatch

/-- Element-wise traversal with the first failure propagated, the
evaluation order of Go `json.Unmarshal` on arrays and objects. -/
def mapMExcept {α β γ : Type} (f : α → Except γ β) : List α → Except γ (List β)
  | [] => .ok []
  | a :: rest =>
    match f a with
    | .error e => .error e
    | .ok b =>
      match mapMExcept f rest with
      | .error e => .error e
      | .ok bs => .ok (b :: bs)

/-- Go `json.Unmarshal` of a well-formed JSON value into `[]Link`:
`null` yields the nil slice, an array decodes element-wise, any other
shape is an `UnmarshalTypeError`. -/
def decodeLinkSlice (j : Json) : Except DecErr (List Link) :=
  match j with
  | .null => .ok []
  | .arr es => mapMExcept decodeLink es
  | _ => .error .typeMismatch

/-- A string field under `omitempty`: emitted only when non-empty. -/
def strChunk (key : String) (v : String) : List (String × Json) :=
  if v = "" then [] else [(key, .str v)]

/-- A bool field under `omitempty`: emitted only when true. -/
def boolChunk (key : String) (v : Bool) : List (String × Json) :=
  if v then [(key, .bool v)] else []

/-- Go `json.Marshal` of a `Link` struct: fields in declaration order,
`href` always present, the rest under `omitempty`. -/
def encodeLink (l : Link) : Json :=
  .obj ([("href", .str l.href)]
    ++ boolChunk "templated" l.templated
    ++ strChunk "type" l.type
    ++ strChunk "deprecation" l.deprecation
    ++ strChunk "name" l.name
    ++ strChunk "profile" l.profile
    ++ strChunk "title" l.title
    ++ strChunk "hreflang" l.hrefLang)

/-- Go `LinkSet.MarshalJSON`: a single link marshals as the bare link object,
any other length as an array of link objects in sequence order. -/
def marshalLinkSet (l : List Link) : Json :=
  match l with
  | [single] => encodeLink single
  | other => .arr (other.map encodeLink)

/-- Go `LinkSet.UnmarshalJSON`: try the single-link decode first; on an
`UnmarshalTypeError` (the only decode-error shape on well-formed input)
retry as an array of links; a syntax error propagates untouched without
the array attempt. -/
def unmarshalLinkSet (d : Bytes) : Except UErr (List Link) :=
  match d with
  | .malformed => .error .parseFailure
  | .wellFormed j =>
    match decodeLink j with
    | .ok single => .ok [single]
    | .error .typeMismatch =>
      match decodeLinkSlice j with
      | .ok multiple => .ok multiple
      | .error e2 => .error (.decode e2)

/-- Go `json.Marshal` of `Links.Items` (`map[string]LinkSet`): an object
with one field per relation, each marshalled by `LinkSet.MarshalJSON`.
(Go emits map keys in sorted order; field order is immaterial to the
relation-to-sequence mapping.) -/
def serializeItems (items : List (String × List Link)) : Json :=
  .obj (items.map fun p => (p.1, marshalLinkSet p.2))

/-- Go `json.Unmarshal` of an object into `map[string]LinkSet`: each
field's raw value goes through `LinkSet.UnmarshalJSON`. -/
def deserializeItems (j : Json) : Except UErr (List (String × List Link)) :=
  match j with
  | .obj fs =>
    mapMExcept (fun p => (unmarshalLinkSet (.wellFormed p.2)).map fun s => (p.1, s)) fs
  | _ => .error (.decode .typeMismatch)

/-- Decoding inverts encoding on every `Link`. -/
theorem decodeLink_encodeLink (l : Link) : decodeLink (encodeLink l) = .ok l := by
  rcases l with ⟨h, t, ty, d, nm, p, ti, hl⟩
  simp only [encodeLink, strChunk, boolChunk]
  split_ifs <;>
    simp_all +decide [decodeLink, getStrField, getBoolField, assocLookup]

/-- Element-wise decoding inverts element-wise encoding. -/
theorem mapM_decode_map_encode (s : List Link) :
    mapMExcept decodeLink (s.map encodeLink) = .ok s := by
  induction s with
  | nil => rfl
  | cons a rest ih =>
    simp [mapMExcept, decodeLink_encodeLink, ih]

/-- The helper `mapMExcept` preserves length on success. -/
theorem length_of_mapMExcept_ok {α β γ : Type} (f : α → Except γ β) :
    ∀ (es : List α) (ls : List β), mapMExcept f es = .ok ls → ls.length = es.length := by
  intro es
  induction es with
  | nil =>
    intro ls h
    simp only [mapMExcept, Except.ok.injEq] at h
    simp [← h]
  | cons a rest ih =>
    intro ls h
    simp only [mapMExcept] at h
    cases hf : f a with
    | error e => simp [hf] at h
    | ok b =>
      simp only [hf] at h
      cases hr : mapMExcept f rest with
      | error e => simp [hr] at h
      | ok bs =>
        simp only [hr, Except.ok.injEq] at h
        simp [← h, ih bs hr]

/-- Unmarshalling inverts marshalling on every link set. -/
theorem unmarshal_marshal (s : List Link) :
    unmarshalLinkSet (.wellFormed (marshalLinkSet s)) = .ok s := by
  match s with
  | [single] =>
    simp [marshalLinkSet, unmarshalLinkSet, decodeLink_encodeLink]
  | [] =>
    simp [marshalLinkSet, unmarshalLinkSet, decodeLink, decodeLinkSlice, mapMExcept]
  | a :: b :: rest =>
    have h2 := mapM_decode_map_encode (a :: b :: rest)
    simp only [List.map_cons] at h2
    simp only [marshalLinkSet, unmarshalLinkSet, decodeLink, decodeLinkSlice, List.map_cons]
    rw [h2]

/-- Deserializing the serialization of an items map gives it back. -/
theorem items_roundtrip (items : List (String × List Link)) :
    deserializeItems (serializeItems items) = .ok items := by
  induction items with
  | nil => rfl
  | cons p rest ih =>
    simp only [serializeItems, deserializeItems, List.map_cons, mapMExcept,
      unmarshal_marshal, Except.map] at *
    rw [ih]

/-- C1: `LinkSet.UnmarshalJSON` tries the single-Link decode first and
retries as an array of links exactly when that decode fails with a JSON
type-mismatch error; a syntax failure propagates as-is without the array
attempt; a bare link object yields a length-1 set, and an array a set of
the same length as the array. -/
theorem c1_linkset_unmarshal_fallback :
    (unmarshalLinkSet .malformed = .error .parseFailure)
    ∧ (∀ (j : Json) (l : Link), decodeLink j = .ok l →
        unmarshalLinkSet (.wellFormed j) = .ok [l])
    ∧ (∀ (es : List Json) (ls : List Link), decodeLinkSlice (.arr es) = .ok ls →
        unmarshalLinkSet (.wellFormed (.arr es)) = .ok ls ∧ ls.length = es.length)
    ∧ (∀ (j : Json) (e : DecErr), decodeLink j = .error e →
        unmarshalLinkSet (.wellFormed j) =
          (match decodeLinkSlice j with
           | .ok m => .ok m
           | .error e2 => .error (.decode e2))) := by
  refine ⟨rfl, ?_, ?_, ?_⟩
  · intro j l h
    simp [unmarshalLinkSet, h]
  · intro es ls h
    refine ⟨?_, ?_⟩
    · simp only [unmarshalLinkSet, decodeLink, h]
    · simp only [decodeLinkSlice] at h
      exact length_of_mapMExcept_ok decodeLink es ls h
  · intro j e h
    cases e
    simp only [unmarshalLinkSet, h]

/-- Witness for C1: a bare link object yields a length-1 set and a
two-element array a length-2 set. -/
theorem c1_witness :
    unmarshalLinkSet (.wellFormed (.obj [("href", .str "/a")])) = .ok [{href := "/a"}]
    ∧ unmarshalLinkSet
        (.wellFormed (.arr [.obj [("href", .str "/a")], .obj [("href", .str "/b")]])) =
      .ok [{href := "/a"}, {href := "/b"}] :=
  ⟨c1_linkset_unmarshal_fallback.2.1 _ {href := "/a"} rfl,
   (c1_linkset_unmarshal_fallback.2.2.1
      [.obj [("href", .str "/a")], .obj [("href", .str "/b")]]
      [{href := "/a"}, {href := "/b"}] rfl).1⟩

/-- C2: for a Links collection whose relations all carry a non-empty
link set, deserializing the serialization returns the collection itself,
hence the identical relation-to-ordered-link-sequence mapping. -/
theorem c2_links_roundtrip (items : List (String × List Link))
    (_hne : ∀ p ∈ items, p.2 ≠ []) :
    deserializeItems (serializeItems items) = .ok items :=
  items_roundtrip items

/-- Witness for C2: round-trip of a two-relation collection with a
single-link and a double-link relation. -/
theorem c2_witness :
    deserializeItems (serializeItems
        [("self", [{href := "/orders"}]),
         ("ea:admin", [{href := "/admins/2", title := "Fred"},
                       {href := "/admins/5", title := "Kate"}])]) =
      .ok [("self", [{href := "/orders"}]),
           ("ea:admin", [{href := "/admins/2", title := "Fred"},
                         {href := "/admins/5", title := "Kate"}])] :=
  c2_links_roundtrip _ (by decide)

/-- C3: a one-link set marshals as a bare JSON object and a set of two
or more links marshals as a JSON array of link objects in order. -/
theorem c3_linkset_marshal_shape :
    (∀ l0 : Link, ∃ fields, marshalLinkSet [l0] = .obj fields)
    ∧ (∀ s : List Link, 2 ≤ s.length → marshalLinkSet s = .arr (s.map encodeLink)) := by
  refine ⟨fun l0 => ⟨_, rfl⟩, ?_⟩
  intro s h
  match s with
  | [] => simp at h
  | [x] => simp at h
  | a :: b :: rest => rfl

/-- Witness for C3: a two-link set marshals as the two-element array. -/
theorem c3_witness :
    marshalLinkSet [{href := "/a"}, {href := "/b"}] =
      .arr ([({href := "/a"} : Link), {href := "/b"}].map encodeLink) :=
  c3_linkset_marshal_shape.2 _ (by decide)

/-! ## URI templates (github.com/jtacoma/uritemplates, the subset halgo hrefs use) -/

/-- Expansion operator of a template expression: simple (`\x7bvar\x7d`) or
form-style query (`\x7b?var\x7d`). Other RFC 6570 operators are outside the
modelled subset and are rejected by the variable validator below. -/
inductive TOp where
  | simple
  | query
  deriving DecidableEq, Repr

/-- One part of a parsed URI template: a literal run or an expression. -/
inductive TPart where
  | lit (s : String)
  | expr (op : TOp) (vars : List String)
  deriving DecidableEq, Repr

/-- Template parse failure (`uritemplates.Parse` returns an error). -/
inductive TErr where
  | malformed
  deriving DecidableEq, Repr

/-- Template parameter values: halgo passes `P`/`Params`
(`map[string]interface\x7b\x7d`) with scalar values. -/
inductive PValue where
  | s (v : String)
  | n (v : Nat)
  deriving DecidableEq, Repr

/-- The `P` / `Params` map, as an association list (a nil Go map and an
empty Go map are both the empty list: lookups behave identically). -/
abbrev Params := List (String × PValue)

/-- Go `strings.Split` on a single-character separator (always returns at
least one chunk). -/
def splitOnChar (sep : Char) : List Char → List (List Char)
  | [] => [[]]
  | c :: cs =>
    let r := splitOnChar sep cs
    if c = sep then [] :: r
    else
      match r with
      | [] => [[c]]
      | g :: gs => (c :: g) :: gs

/-- A legal template variable name in the modelled subset. -/
def validVar (v : List Char) : Bool :=
  !v.isEmpty && v.all fun c => c.isAlphanum || c = '_' || c = '.'

/-- Split an expression body at commas into validated variable names. -/
def parseVarList (s : List Char) : Option (List String) :=
  let vs := splitOnChar ',' s
  if vs.all validVar then some (vs.map String.mk) else none

/-- Parse one `\x7b...\x7d` expression body: empty bodies and illegal
variable names are malformed; a leading `?` selects query expansion. -/
def parseExpression (e : List Char) : Except TErr TPart :=
  match e with
  | [] => .error .malformed
  | '?' :: rest =>
    match parseVarList rest with
    | none => .error .malformed
    | some vs => .ok (.expr .query vs)
  | other =>
    match parseVarList other with
    | none => .error .malformed
    | some vs => .ok (.expr .simple vs)

/-- The opening template brace. -/
def lbrace : Char := Char.ofNat 123

/-- The closing template brace. -/
def rbrace : Char := Char.ofNat 125

/-- Go `uritemplates.Parse`: split the raw template on `\x7b`; the leading
chunk must contain no `\x7d`, and every later chunk exactly one, splitting
it into an expression body and a trailing literal. -/
def parseTemplate (s : String) : Except TErr (List TPart) :=
  match splitOnChar lbrace s.data with
  | [] => .error .malformed
  | first :: rest =>
    if (splitOnChar rbrace first).length ≠ 1 then .error .malformed
    else
      match mapMExcept (fun chunk =>
        match splitOnChar rbrace chunk with
        | [e, postlit] =>
          match parseExpression e with
          | .error er => .error er
          | .ok p => .ok [p, .lit (String.mk postlit)]
        | _ => .error .malformed) rest with
      | .error er => .error er
      | .ok parts => .ok (.lit (String.mk first) :: parts.flatten)

/-- Uppercase hex digit. -/
def hexDigit (n : Nat) : Char :=
  if n < 10 then Char.ofNat (48 + n) else Char.ofNat (55 + n)

/-- Percent-encode one character (ASCII range; unreserved pass through). -/
def escapeChar (c : Char) : List Char :=
  if c.isAlphanum || c = '-' || c = '.' || c = '_' || c = '~' then [c]
  else ['%', hexDigit (c.toNat / 16 % 16), hexDigit (c.toNat % 16)]

/-- Percent-encode a value for substitution into a template. -/
def escapeValue (s : String) : String :=
  String.mk (s.data.map escapeChar).flatten

/-- Join strings with a separator (kernel-reducible `strings.Join`). -/
def joinSep (sep : String) : List String → String
  | [] => ""
  | [x] => x
  | x :: xs => x ++ sep ++ joinSep sep xs

/-- Concatenate strings (kernel-reducible). -/
def concatAll (l : List String) : String :=
  l.foldl (· ++ ·) ""

/-- Render a parameter value the way the expander stringifies it. -/
def pvalueString : PValue → String
  | .s v => v
  | .n v => toString v

/-- Expand a single template part against the parameters: expressions
whose variables are all unsatisfied expand to the empty string; query
expansion prefixes `?` and joins satisfied variables with `&`. -/
def expandPart (ps : Params) : TPart → String
  | .lit s => s
  | .expr .simple vars =>
    joinSep ","
      (vars.filterMap fun v => (assocLookup v ps).map fun pv => escapeValue (pvalueString pv))
  | .expr .query vars =>
    let vals := vars.filterMap fun v =>
      (assocLookup v ps).map fun pv => v ++ "=" ++ escapeValue (pvalueString pv)
    if vals = [] then "" else "?" ++ joinSep "&" vals

/-- Go `UriTemplate.Expand`: concatenate the expansion of every part. -/
def expandTemplate (t : List TPart) (ps : Params) : String :=
  concatAll (t.map (expandPart ps))

/-- Errors of `Links.HrefParams`: a template parse failure, or the panic
Go would raise indexing `links[0]` of an empty set. -/
inductive HErr where
  | template (e : TErr)
  | emptyLinkSet
  deriving DecidableEq, Repr

/-- Go `Links.HrefParams` (navigator/query.go): find the relation's link
set, take its first link, parse its href as a URI template and expand it
with the parameters; an absent relation yields the empty string with no
error. -/
def hrefParams (l : List (String × List Link)) (rel : String) (ps : Params) :
    Except HErr String :=
  match assocLookup rel l with
  | none => .ok ""
  | some [] => .error .emptyLinkSet
  | some (l0 :: _) =>
    match parseTemplate l0.href with
    | .error e => .error (.template e)
    | .ok t => .ok (expandTemplate t ps)

/-- Go `Links.Href`: `HrefParams` with no parameters. -/
def hrefOf (l : List (String × List Link)) (rel : String) : Except HErr String :=
  hrefParams l rel []

/-- The variables a template part mentions. -/
def partVars : TPart → List String
  | .lit _ => []
  | .expr _ vs => vs

/-- All variables a template mentions. -/
def templateVars (t : List TPart) : List String :=
  (t.map partVars).flatten

/-- The literal content of a part: expressions contribute nothing. -/
def litOnly : TPart → String
  | .lit s => s
  | .expr _ _ => ""

/-- The literal skeleton of a template: its literal runs concatenated. -/
def concatLits (t : List TPart) : String :=
  concatAll (t.map litOnly)

theorem assocLookup_eq_none {α : Type} (ps : List (String × α)) (v : String)
    (h : ∀ kv ∈ ps, kv.1 ≠ v) : assocLookup v ps = none := by
  induction ps with
  | nil => rfl
  | cons kv rest ih =>
    simp only [assocLookup]
    rw [if_neg (h kv (by simp))]
    exact ih fun x hx => h x (by simp [hx])

theorem filterMap_lookup_nil {β : Type} (vars : List String) (ps : Params)
    (f : String → PValue → β) (h : ∀ v ∈ vars, assocLookup v ps = none) :
    (vars.filterMap fun v => (assocLookup v ps).map (f v)) = [] := by
  induction vars with
  | nil => rfl
  | cons v rest ih =>
    simp only [List.filterMap_cons, h v (by simp), Option.map_none']
    exact ih fun x hx => h x (by simp [hx])

/-- A part all of whose variables are unsatisfied expands to its literal
content (expressions are omitted). -/
theorem expandPart_unsatisfied (ps : Params) (p : TPart)
    (h : ∀ v ∈ partVars p, assocLookup v ps = none) :
    expandPart ps p = litOnly p := by
  match p with
  | .lit s => rfl
  | .expr .simple vars =>
    simp only [expandPart, litOnly]
    rw [filterMap_lookup_nil vars ps _ (by simpa [partVars] using h)]
    rfl
  | .expr .query vars =>
    simp only [expandPart, litOnly]
    rw [filterMap_lookup_nil vars ps _ (by simpa [partVars] using h)]
    rfl

/-- Expanding with parameters disjoint from the template's variables
yields the literal skeleton, the same output as no parameters at all. -/
theorem expandTemplate_disjoint (t : List TPart) (ps : Params)
    (h : ∀ kv ∈ ps, kv.1 ∉ templateVars t) :
    expandTemplate t ps = concatLits t ∧ expandTemplate t [] = concatLits t := by
  constructor
  · unfold expandTemplate concatLits
    congr 1
    apply List.map_congr_left
    intro p hp
    apply expandPart_unsatisfied
    intro v hv
    apply assocLookup_eq_none
    intro kv hkv hne
    exact h kv hkv (by
      subst hne
      unfold templateVars
      exact List.mem_flatten.2 ⟨partVars p, List.mem_map_of_mem partVars hp, hv⟩)
  · unfold expandTemplate concatLits
    congr 1
    apply List.map_congr_left
    intro p hp
    apply expandPart_unsatisfied
    intro v _
    rfl

/-- C6: `Links.HrefParams` returns the empty string (and no error) for
an absent relation; for a present relation it is determined by the first
link of the set alone — its href parsed as a URI template and expanded,
with a malformed template surfaced as an error — and never consults
later links. -/
theorem c6_hrefparams_first_link (l : List (String × List Link)) (rel : String)
    (ps : Params) :
    (assocLookup rel l = none → hrefParams l rel ps = .ok "")
    ∧ (∀ (l0 : Link) (rest : List Link), assocLookup rel l = some (l0 :: rest) →
        hrefParams l rel ps =
          (match parseTemplate l0.href with
           | .error e => .error (.template e)
           | .ok t => .ok (expandTemplate t ps))) := by
  constructor
  · intro h
    simp only [hrefParams, h]
  · intro l0 rest h
    simp only [hrefParams, h]

/-- Witness for C6: an absent relation yields `""`; a two-link relation
resolves through its first link only; a malformed first href errors. -/
theorem c6_witness :
    hrefParams [] "missing" [] = .ok ""
    ∧ hrefParams [("r", [{href := "/a"}, {href := "/b"}])] "r" [] =
        (match parseTemplate "/a" with
         | .error e => .error (.template e)
         | .ok t => .ok (expandTemplate t []))
    ∧ hrefParams [("r", [{href := "/bad\x7b"}, {href := "/b"}])] "r" [] =
        (match parseTemplate "/bad\x7b" with
         | .error e => .error (.template e)
         | .ok t => .ok (expandTemplate t [])) :=
  ⟨(c6_hrefparams_first_link [] "missing" []).1 rfl,
   (c6_hrefparams_first_link _ "r" []).2 {href := "/a"} [{href := "/b"}] rfl,
   (c6_hrefparams_first_link _ "r" []).2 {href := "/bad\x7b"} [{href := "/b"}] rfl⟩

/-- C8: expanding a parsed template with parameters none of which are
referenced by the template (in particular with no parameters at all)
yields the literal skeleton with every unsatisfied expression omitted;
`/example\x7b?q\x7d` yields `/example` under nil, empty and mismatched
parameters alike, and `/orders\x7b?id\x7d` with `id = 123` yields
`/orders?id=123`. -/
theorem c8_template_edge_cases :
    (∀ (tstr : String) (t : List TPart) (ps : Params),
      parseTemplate tstr = .ok t →
      (∀ kv ∈ ps, kv.1 ∉ templateVars t) →
      expandTemplate t ps = expandTemplate t [] ∧ expandTemplate t ps = concatLits t)
    ∧ hrefParams [("x", [{href := "/example\x7b?q\x7d"}])] "x" [] = .ok "/example"
    ∧ hrefParams [("x", [{href := "/example\x7b?q\x7d"}])] "x" [("c", .s "test")] =
        .ok "/example"
    ∧ hrefParams [("ea:find", [{href := "/orders\x7b?id\x7d"}])] "ea:find"
        [("id", .n 123)] = .ok "/orders?id=123" := by
  refine ⟨?_, rfl, rfl, rfl⟩
  intro tstr t ps _ hdisj
  have h := expandTemplate_disjoint t ps hdisj
  exact ⟨h.1.trans h.2.symm, h.1⟩

/-- Witness for C8: the general disjoint-parameter clause applied to the
parsed `/example\x7b?q\x7d` template with a mismatched parameter. -/
theorem c8_witness :
    expandTemplate [.lit "/example", .expr .query ["q"], .lit ""] [("c", .s "test")] =
      expandTemplate [.lit "/example", .expr .query ["q"], .lit ""] [] :=
  (c8_template_edge_cases.1 "/example\x7b?q\x7d"
    [.lit "/example", .expr .query ["q"], .lit ""] [("c", .s "test")] rfl
    (by decide)).1

/-! ## URLs (net/url, the subset halgo's resolution exercises: no
fragments, no escaping, no opaque forms) -/

/-- The parsed `url.URL` fields halgo's resolution touches. -/
structure Url where
  scheme : String := ""
  user : Option String := none
  host : String := ""
  path : String := ""
  query : String := ""
  deriving DecidableEq, Repr

/-- Go `url.URL.IsAbs`: a URL is absolute exactly when it has a scheme. -/
def Url.isAbs (u : Url) : Bool := u.scheme ≠ ""

/-- Go `url.Parse` failure in the modelled subset (a leading `:`). -/
inductive UrlErr where
  | missingScheme
  deriving DecidableEq, Repr

/-- Take characters up to (excluding) the first stop character. -/
def takeWhileNot (stops : List Char) : List Char → (List Char × List Char)
  | [] => ([], [])
  | c :: cs =>
    if stops.contains c then ([], c :: cs)
    else
      let (a, b) := takeWhileNot stops cs
      (c :: a, b)

/-- Split at the first occurrence of a separator (dropped); the second
component is empty when the separator is absent. -/
def splitAtFirst (sep : Char) (cs : List Char) : (List Char × List Char) :=
  match takeWhileNot [sep] cs with
  | (a, []) => (a, [])
  | (a, _ :: r) => (a, r)

/-- Go `net/url` `getscheme`: the longest `alpha (alnum|+|-|.)*` prefix
terminated by `:`; an invalid character before any `:` means the string
has no scheme. -/
def findScheme : List Char → List Char → Option (List Char × List Char)
  | _, [] => none
  | acc, c :: cs =>
    if c = ':' then
      if acc.isEmpty then none else some (acc.reverse, cs)
    else if (if acc.isEmpty then c.isAlpha
             else c.isAlpha || c.isDigit || c = '+' || c = '-' || c = '.') then
      findScheme (c :: acc) cs
    else none

/-- Split `user@host` at the last `@` (Go `parseAuthority`). -/
def splitUserinfo (auth : List Char) : (Option (List Char) × List Char) :=
  match takeWhileNot ['@'] auth.reverse with
  | (_, []) => (none, auth)
  | (revHost, _ :: revUser) => (some revUser.reverse, revHost.reverse)

/-- Go `url.Parse` for the modelled subset: optional scheme, optional
`//`-authority with optional userinfo, then path and query. A leading
`:` is the `missing protocol scheme` error. -/
def parseUrl (s : String) : Except UrlErr Url :=
  match s.data with
  | ':' :: _ => .error .missingScheme
  | cs =>
    let (scheme, rest) :=
      match findScheme [] cs with
      | some (sc, r) => (String.mk sc, r)
      | none => ("", cs)
    match rest with
    | '/' :: '/' :: r2 =>
      let (auth, r3) := takeWhileNot ['/', '?'] r2
      let (user, host) := splitUserinfo auth
      let (path, query) := splitAtFirst '?' r3
      .ok { scheme := scheme, user := user.map String.mk, host := String.mk host,
            path := String.mk path, query := String.mk query }
    | other =>
      let (path, query) := splitAtFirst '?' other
      .ok { scheme := scheme, user := none, host := "",
            path := String.mk path, query := String.mk query }

/-- Whether a rendered path already begins with a slash. -/
def startsWithSlash (s : String) : Bool :=
  match s.data with
  | '/' :: _ => true
  | _ => false

/-- Go `url.URL.String` for the modelled subset, including its insertion
of `/` between a non-empty host and a path that does not already start
with one. -/
def urlString (u : Url) : String :=
  (if u.scheme ≠ "" then u.scheme ++ ":" else "")
  ++ (if u.scheme ≠ "" ∨ u.host ≠ "" ∨ u.user.isSome then
        (if u.host ≠ "" ∨ u.path ≠ "" ∨ u.user.isSome then "//" else "")
        ++ (match u.user with | some ui => ui ++ "@" | none => "")
        ++ u.host
      else "")
  ++ (if u.path ≠ "" ∧ startsWithSlash u.path = false ∧ u.host ≠ "" then "/" else "")
  ++ u.path
  ++ (if u.query ≠ "" then "?" ++ u.query else "")

/-- Go `makeAbsoluteIfNecessary`: parse the current URL; return it verbatim
when absolute; otherwise parse the root and re-render the current URL
with the root's scheme, host and user credentials. -/
def makeAbsoluteIfNecessary (current root : String) : Except UrlErr String :=
  match parseUrl current with
  | .error e => .error e
  | .ok cu =>
    if cu.isAbs then .ok current
    else
      match parseUrl root with
      | .error e => .error e
      | .ok ru =>
        .ok (urlString { cu with scheme := ru.scheme, host := ru.host, user := ru.user })

/-- C7: an absolute step-result URL is returned unchanged; a relative one
is re-rendered with the root's scheme, host and user credentials while its
own path and query are kept intact; in particular `/2nd` against root
`http://host:1234` yields `http://host:1234/2nd`, and a host-relative
`2nd` gains the separating slash the Go renderer inserts. -/
theorem c7_relative_resolution (current root : String) (cu ru : Url) :
    (parseUrl current = .ok cu → cu.isAbs →
      makeAbsoluteIfNecessary current root = .ok current)
    ∧ (parseUrl current = .ok cu → ¬cu.isAbs → parseUrl root = .ok ru →
        makeAbsoluteIfNecessary current root =
          .ok (urlString { scheme := ru.scheme, user := ru.user, host := ru.host,
                           path := cu.path, query := cu.query }))
    ∧ makeAbsoluteIfNecessary "/2nd" "http://host:1234" = .ok "http://host:1234/2nd"
    ∧ makeAbsoluteIfNecessary "2nd" "http://host:1234" = .ok "http://host:1234/2nd" := by
  refine ⟨?_, ?_, rfl, rfl⟩
  · intro hc habs
    simp only [makeAbsoluteIfNecessary, hc, habs, if_true]
  · intro hc hrel hr
    have hfalse : cu.isAbs = false := by
      revert hrel
      cases cu.isAbs <;> simp
    simp only [makeAbsoluteIfNecessary, hc, hfalse, Bool.false_eq_true, if_false, hr]

/-- Witness for C7: the absolute case returns the input verbatim and the
relative case re-renders against the root. -/
theorem c7_witness :
    makeAbsoluteIfNecessary "http://a/b" "http://c" = .ok "http://a/b"
    ∧ makeAbsoluteIfNecessary "/2nd" "http://host:1234" =
        .ok (urlString { scheme := "http", user := none, host := "host:1234",
                         path := "/2nd", query := "" }) :=
  ⟨(c7_relative_resolution "http://a/b" "http://c"
      { scheme := "http", host := "a", path := "/b" } {}).1 rfl (by decide),
   (c7_relative_resolution "/2nd" "http://host:1234"
      { path := "/2nd" } { scheme := "http", host := "host:1234" }).2.1 rfl
      (by decide) rfl⟩

/-! ## Path resolution (navigator.url, follow.Fetch, extract.Fetch) -/

/-- The fetch oracle abstracting `getLinks` and `getEmbedded`: one HTTP
GET plus JSON decode per call, keyed by the requested URL. `getEmbedded`
returns the `_embedded` map, each embedded resource being its own links
collection. -/
structure Env where
  getLinks : String → Except String (List (String × List Link))
  getEmbedded : String → Except String (List (String × List (String × List Link)))

/-- The errors path resolution can surface (`fmt.Errorf` wraps carry the
context the source formats into the message). -/
inductive ResErr where
  | getLinksFailed (url : String)
  | linkNotFound (rel : String) (items : List (String × List Link))
  | hrefFailed (rel : String)
  | invalidUrl (url : String)
  | getEmbeddedFailed (url : String)
  | embeddedNotFound (rel : String)
  | selfHrefFailed (rel : String)
  | makeAbsoluteFailed (e : UrlErr)
  deriving DecidableEq, Repr

/-- A path operation: `follow` a relation with expansion parameters, or
`extract` an embedded resource. Per-step headers only feed the HTTP
requests the oracle abstracts, so they are omitted here. -/
inductive Op where
  | follow (rel : String) (params : Params)
  | extract (rel : String)

/-- Go `follow.Fetch`: get the links at the current URL; a missing relation
is `LinkNotFoundError`; an href-resolution failure is wrapped; an empty
resolved URL is `InvalidUrlError`. -/
def followFetch (env : Env) (rel : String) (ps : Params) (url : String) :
    Except ResErr String :=
  match env.getLinks url with
  | .error _ => .error (.getLinksFailed url)
  | .ok links =>
    match assocLookup rel links with
    | none => .error (.linkNotFound rel links)
    | some _ =>
      match hrefParams links rel ps with
      | .error _ => .error (.hrefFailed rel)
      | .ok u => if u = "" then .error (.invalidUrl u) else .ok u

/-- Go `extract.Fetch` via `getEmbedded`: fetch the embedded map at the
current URL, look up the relation, and return that sub-resource's own
`self` href. -/
def extractFetch (env : Env) (rel : String) (url : String) : Except ResErr String :=
  match env.getEmbedded url with
  | .error _ => .error (.getEmbeddedFailed url)
  | .ok res =>
    match assocLookup rel res with
    | none => .error (.embeddedNotFound rel)
    | some sub =>
      match hrefOf sub "self" with
      | .error _ => .error (.selfHrefFailed rel)
      | .ok selfHref => .ok selfHref

/-- Go `Operation.Fetch`, dispatching on the variant. -/
def opFetch (env : Env) : Op → String → Except ResErr String
  | .follow rel ps => followFetch env rel ps
  | .extract rel => extractFetch env rel

/-- Go `navigator.url`'s loop, instrumented with the list of URLs fetched:
each operation performs exactly one fetch at the current URL, then the
result is made absolute against the root; the first failure stops the
loop. -/
def navUrlAux (env : Env) (root : String) : List Op → String → (Except ResErr String × List String)
  | [], u => (.ok u, [])
  | op :: rest, u =>
    match opFetch env op u with
    | .error e => (.error e, [u])
    | .ok u' =>
      match makeAbsoluteIfNecessary u' root with
      | .error e => (.error (.makeAbsoluteFailed e), [u])
      | .ok u'' =>
        let r := navUrlAux env root rest u''
        (r.1, u :: r.2)

/-- Go `navigator.url`: run the path from the root URI. -/
def navUrl (env : Env) (root : String) (path : List Op) :
    Except ResErr String × List String :=
  navUrlAux env root path root

/-- C4: a Follow step whose relation is absent fails with
`LinkNotFoundError`; one whose href resolves to the empty string fails
with `InvalidUrlError`; and the resolution loop is strictly sequential —
a failing first step returns its error with exactly one fetch and no
partial result, and a succeeding step hands the absolutized URL to the
rest of the path. -/
theorem c4_resolution_errors (env : Env) (root rel : String) (ps : Params)
    (rest : List Op) :
    (∀ links, env.getLinks root = .ok links → assocLookup rel links = none →
      navUrl env root (.follow rel ps :: rest) = (.error (.linkNotFound rel links), [root]))
    ∧ (∀ links ls, env.getLinks root = .ok links → assocLookup rel links = some ls →
        hrefParams links rel ps = .ok "" →
        navUrl env root (.follow rel ps :: rest) = (.error (.invalidUrl ""), [root]))
    ∧ (∀ (op : Op) (e : ResErr), opFetch env op root = .error e →
        navUrl env root (op :: rest) = (.error e, [root]))
    ∧ (∀ (op : Op) (u' u'' : String), opFetch env op root = .ok u' →
        makeAbsoluteIfNecessary u' root = .ok u'' →
        navUrl env root (op :: rest) =
          ((navUrlAux env root rest u'').1, root :: (navUrlAux env root rest u'').2)) := by
  refine ⟨?_, ?_, ?_, ?_⟩
  · intro links hl hn
    simp only [navUrl, navUrlAux, opFetch, followFetch, hl, hn]
  · intro links ls hl hs he
    simp only [navUrl, navUrlAux, opFetch, followFetch, hl, hs, he]
    simp
  · intro op e hf
    simp only [navUrl, navUrlAux, hf]
  · intro op u' u'' hf habs
    simp only [navUrl, navUrlAux, hf, habs]

/-- Witness for C4: a one-relation environment in which a missing
relation yields `LinkNotFoundError` after exactly one fetch, and an empty
href yields `InvalidUrlError`. -/
theorem c4_witness :
    navUrl
      { getLinks := fun _ => .ok [("next", [{href := "/2nd"}]), ("empty", [{href := ""}])],
        getEmbedded := fun _ => .error "" }
      "http://r" [.follow "missing" []] =
      (.error (.linkNotFound "missing"
        [("next", [{href := "/2nd"}]), ("empty", [{href := ""}])]), ["http://r"])
    ∧ navUrl
        { getLinks := fun _ => .ok [("next", [{href := "/2nd"}]), ("empty", [{href := ""}])],
          getEmbedded := fun _ => .error "" }
        "http://r" [.follow "empty" []] =
        (.error (.invalidUrl ""), ["http://r"]) :=
  ⟨(c4_resolution_errors _ "http://r" "missing" [] []).1 _ rfl rfl,
   (c4_resolution_errors _ "http://r" "empty" [] []).2.1 _ [{href := ""}] rfl rfl rfl⟩

/-! ## HTTP headers and request building -/

/-- Go `textproto.CanonicalMIMEHeaderKey` over its dash-token structure
(validity fast-paths aside): first letter of each dash-separated token
uppercased, the rest lowercased. -/
def canonAux : Bool → List Char → List Char
  | _, [] => []
  | start, c :: cs =>
    if c = '-' then c :: canonAux true cs
    else (if start then c.toUpper else c.toLower) :: canonAux false cs

/-- Canonical MIME header key. -/
def canonicalKey (s : String) : String :=
  String.mk (canonAux true s.data)

/-- An `http.Header` value: canonical keys to ordered value lists. -/
abbrev Header := List (String × List String)

/-- Go `http.Header.Set`: replace the canonical key's values with `[v]`. -/
def headerSet (h : Header) (k v : String) : Header :=
  let ck := canonicalKey k
  if (assocLookup ck h).isSome then
    h.map fun kv => if kv.1 = ck then (ck, [v]) else kv
  else h ++ [(ck, [v])]

/-- Go `http.Header.Add`: append `v` to the canonical key's values. -/
def headerAdd (h : Header) (k v : String) : Header :=
  let ck := canonicalKey k
  if (assocLookup ck h).isSome then
    h.map fun kv => if kv.1 = ck then (kv.1, kv.2 ++ [v]) else kv
  else h ++ [(ck, [v])]

/-- Go `mergeHeaders`: `Add` every value of every entry of `extra` onto
`base` (the per-request header merge of the terminal methods). -/
def headerAddAll (base : Header) (extra : Header) : Header :=
  extra.foldl (fun b kv => kv.2.foldl (fun b' v => headerAdd b' kv.1 v) b) base

/-- Lexicographic order on char lists (Go string `<`). -/
def charListLe : List Char → List Char → Bool
  | [], _ => true
  | _ :: _, [] => false
  | a :: as, b :: bs =>
    if a = b then charListLe as bs else decide (a.toNat < b.toNat)

/-- Insertion into a key-sorted association list. -/
def insertSorted (kv : String × List String) :
    List (String × List String) → List (String × List String)
  | [] => [kv]
  | x :: xs =>
    if charListLe kv.1.data x.1.data then kv :: x :: xs else x :: insertSorted kv xs

/-- Sort form data by key, as `url.Values.Encode` does. -/
def sortByKey (l : List (String × List String)) : List (String × List String) :=
  l.foldr insertSorted []

/-- Go `url.QueryEscape` of one character: unreserved pass, space becomes
`+`, the rest percent-encoded. -/
def queryEscapeChar (c : Char) : List Char :=
  if c.isAlphanum || c = '-' || c = '.' || c = '_' || c = '~' then [c]
  else if c = ' ' then ['+']
  else ['%', hexDigit (c.toNat / 16 % 16), hexDigit (c.toNat % 16)]

/-- Go `url.QueryEscape`. -/
def queryEscape (s : String) : String :=
  String.mk (s.data.map queryEscapeChar).flatten

/-- Go `url.Values.Encode`: keys sorted, each value as `k=v`, joined by
`&`. -/
def urlValuesEncode (data : List (String × List String)) : String :=
  joinSep "&"
    ((sortByKey data).map fun kv =>
      kv.2.map fun v => queryEscape kv.1 ++ "=" ++ queryEscape v).flatten

/-- An outgoing `http.Request` as the terminal methods build it. -/
structure Request where
  method : String
  url : String
  header : Header
  body : String
  deriving DecidableEq, Repr

/-- Go `newHalRequest`: build the request and add the default Accept
header. -/
def newHalRequest (method url body : String) : Request :=
  { method := method, url := url,
    header := headerAdd [] "Accept" "application/hal+json, application/json",
    body := body }

/-- Go `navigator.PostForm`'s request construction (after the path resolved
to `url`): `newHalRequest("PATCH", url, data.Encode())`, then the
form content type, then the session and per-call headers merged on. -/
def postFormRequest (sessionHeader : Header) (extra : List Header) (url : String)
    (data : List (String × List String)) : Request :=
  let req := newHalRequest "PATCH" url (urlValuesEncode data)
  let req := { req with header := headerAdd req.header "Content-Type"
                          "application/x-www-form-urlencoded" }
  { req with header := (sessionHeader :: extra).foldl headerAddAll req.header }

/-- C5 (code-bug evidence): at a resolved URL with form data `a=b`, the
request `PostForm` builds carries the url-encoded body and the form
content type, but its HTTP method is `PATCH`, not the `POST` the claim,
the spec and the function's own documentation require. -/
theorem c5_postform_method_is_patch :
    (postFormRequest [] [] "http://api/x" [("a", ["b"])]).method = "PATCH"
    ∧ (postFormRequest [] [] "http://api/x" [("a", ["b"])]).method ≠ "POST"
    ∧ (postFormRequest [] [] "http://api/x" [("a", ["b"])]).body =
        urlValuesEncode [("a", ["b"])]
    ∧ assocLookup "Content-Type" (postFormRequest [] [] "http://api/x" [("a", ["b"])]).header =
        some ["application/x-www-form-urlencoded"] := by
  refine ⟨rfl, by decide, rfl, by decide⟩

/-! ## Navigator chaining and header sharing

`http.Header` maps are mutable and reachable through the `*follow` /
`*extract` pointers stored in `path` (the `[]relation` revision shares
its header maps the same way through slice copies). The store below makes
that aliasing explicit: a header cell per allocated map, navigators and
operations holding references. -/

/-- The mutable header cells. -/
structure Store where
  cells : List Header
  deriving DecidableEq, Repr

/-- Dereference (a dangling reference reads an empty header). -/
def Store.read (s : Store) (r : Nat) : Header := s.cells.getD r []

/-- In-place update of one cell. -/
def Store.write (s : Store) (r : Nat) (h : Header) : Store := ⟨s.cells.set r h⟩

/-- Allocate a fresh cell. -/
def Store.alloc (s : Store) (h : Header) : Store × Nat :=
  (⟨s.cells ++ [h]⟩, s.cells.length)

/-- Which `Operation` variant a path entry is. -/
inductive OpKind where
  | follow
  | extract
  deriving DecidableEq, Repr

/-- A path entry: the immutable relation and parameters plus the
reference to its mutable header map. -/
structure NavOp where
  kind : OpKind
  rel : String
  params : Params
  headerRef : Nat
  deriving DecidableEq, Repr

/-- The `navigator` struct: root URI, session-header reference, path of
operations, and the injected client (an opaque handle). -/
structure Nav where
  rootUri : String
  sessionHeaderRef : Nat
  path : List NavOp
  httpClient : Nat
  deriving DecidableEq, Repr

/-- Go `Navigator(uri)`: fresh empty session header, empty path. -/
def navigatorNew (s : Store) (uri : String) (client : Nat) : Store × Nav :=
  let a := s.alloc []
  (a.1, { rootUri := uri, sessionHeaderRef := a.2, path := [], httpClient := client })

/-- Go `navigator.cloneHeader`: allocate a copy of the session header. -/
def cloneHeader (s : Store) (n : Nav) : Store × Nat :=
  s.alloc (s.read n.sessionHeaderRef)

/-- Go `navigator.Followf`: copy the path slice (sharing the existing
operation pointers), append a fresh operation with a new empty header
map, and clone the session header. -/
def navFollowf (s : Store) (n : Nav) (rel : String) (ps : Params) : Store × Nav :=
  let a := s.alloc []
  let c := cloneHeader a.1 n
  (c.1, { rootUri := n.rootUri, sessionHeaderRef := c.2,
          path := n.path ++ [{ kind := .follow, rel := rel, params := ps, headerRef := a.2 }],
          httpClient := n.httpClient })

/-- Go `navigator.Follow`: `Followf` with nil params. -/
def navFollow (s : Store) (n : Nav) (rel : String) : Store × Nav :=
  navFollowf s n rel []

/-- Go `navigator.Extract`: like `Followf` with an extract operation. -/
def navExtract (s : Store) (n : Nav) (rel : String) : Store × Nav :=
  let a := s.alloc []
  let c := cloneHeader a.1 n
  (c.1, { rootUri := n.rootUri, sessionHeaderRef := c.2,
          path := n.path ++ [{ kind := .extract, rel := rel, params := [], headerRef := a.2 }],
          httpClient := n.httpClient })

/-- Go `navigator.SetSessionHeader`: clone, `Set` on the clone, return a
navigator holding the clone. -/
def navSetSessionHeader (s : Store) (n : Nav) (k v : String) : Store × Nav :=
  let a := s.alloc (headerSet (s.read n.sessionHeaderRef) k v)
  (a.1, { n with sessionHeaderRef := a.2 })

/-- Go `navigator.AddSessionHeader`: clone, `Add` on the clone. -/
def navAddSessionHeader (s : Store) (n : Nav) (k v : String) : Store × Nav :=
  let a := s.alloc (headerAdd (s.read n.sessionHeaderRef) k v)
  (a.1, { n with sessionHeaderRef := a.2 })

/-- Go `navigator.SetRequestHeader`: a no-op on an empty path, else `Set`
in place on the last operation's header map. -/
def navSetRequestHeader (s : Store) (n : Nav) (k v : String) : Store × Nav :=
  match n.path.getLast? with
  | none => (s, n)
  | some op => (s.write op.headerRef (headerSet (s.read op.headerRef) k v), n)

/-- Go `navigator.AddRequestHeader`: as `SetRequestHeader` with `Add`. -/
def navAddRequestHeader (s : Store) (n : Nav) (k v : String) : Store × Nav :=
  match n.path.getLast? with
  | none => (s, n)
  | some op => (s.write op.headerRef (headerAdd (s.read op.headerRef) k v), n)

/-- Go `navigator.SetFollowHeader` (the `[]relation` revision): identical
control flow — no-op on an empty path, else in-place `Set` on the last
relation's header map. -/
def navSetFollowHeader (s : Store) (n : Nav) (k v : String) : Store × Nav :=
  match n.path.getLast? with
  | none => (s, n)
  | some op => (s.write op.headerRef (headerSet (s.read op.headerRef) k v), n)

/-- Go `navigator.AddFollowHeader` (the `[]relation` revision). -/
def navAddFollowHeader (s : Store) (n : Nav) (k v : String) : Store × Nav :=
  match n.path.getLast? with
  | none => (s, n)
  | some op => (s.write op.headerRef (headerAdd (s.read op.headerRef) k v), n)

/-- The session header a navigator observes. -/
def navSessionHeader (s : Store) (n : Nav) : Header :=
  s.read n.sessionHeaderRef

/-- The per-operation headers a navigator observes along its path. -/
def navRequestHeaders (s : Store) (n : Nav) : List Header :=
  n.path.map fun op => s.read op.headerRef

/-- Reads below the allocation point are unaffected by allocation. -/
theorem read_alloc (s : Store) (h : Header) (r : Nat) (hr : r < s.cells.length) :
    (s.alloc h).1.read r = s.read r := by
  simp only [Store.alloc, Store.read, List.getD_eq_getElem?_getD]
  rw [List.getElem?_append]
  simp [hr]

/-- The counterexample scenario: fork two chains from a common ancestor
that already has one operation, then mutate that operation's header
through the ancestor. -/
def cex0 : Store × Nav := navigatorNew ⟨[]⟩ "http://r" 0

/-- First chain link: `base = Navigator("http://r").Follow("a")`. -/
def cex1 : Store × Nav := navFollow cex0.1 cex0.2 "a"

/-- Fork: `c2 = base.Follow("b")` shares the `"a"` operation. -/
def cex2 : Store × Nav := navFollow cex1.1 cex1.2 "b"

/-- Mutation through the ancestor: `base.SetRequestHeader("X-Test", "v")`. -/
def cex3 : Store × Nav := navSetRequestHeader cex2.1 cex1.2 "X-Test" "v"

/-- C9 counterexample: after the ancestor chain's `SetRequestHeader`,
the forked chain observes changed per-operation header state — the claim
that no header-mutating call on one chain is observable from another is
false for per-step headers on shared operations. -/
theorem c9_counterexample :
    navRequestHeaders cex3.1 cex2.2 ≠ navRequestHeaders cex2.1 cex2.2 := by
  decide

/-- C9 (amended): session-level header state is truly independent —
`Followf`/`Extract`/`SetSessionHeader`/`AddSessionHeader` only allocate
fresh cells and leave every existing header cell (hence every other
chain's observations) unchanged; the per-step setters return the
navigator value unchanged and write only the last operation's header
cell, a mutation shared with every chain holding that operation. -/
theorem c9_header_scoping (s : Store) (n : Nav) (k v rel : String) (ps : Params)
    (r : Nat) (hr : r < s.cells.length) :
    ((navFollowf s n rel ps).1.read r = s.read r
      ∧ (navExtract s n rel).1.read r = s.read r
      ∧ (navSetSessionHeader s n k v).1.read r = s.read r
      ∧ (navAddSessionHeader s n k v).1.read r = s.read r)
    ∧ ((navSetRequestHeader s n k v).2 = n ∧ (navAddRequestHeader s n k v).2 = n)
    ∧ (∀ op, n.path.getLast? = some op →
        (∀ r', r' ≠ op.headerRef →
          (navSetRequestHeader s n k v).1.read r' = s.read r')
        ∧ (op.headerRef < s.cells.length →
            (navSetRequestHeader s n k v).1.read op.headerRef =
              headerSet (s.read op.headerRef) k v)) := by
  refine ⟨⟨?_, ?_, ?_, ?_⟩, ⟨?_, ?_⟩, ?_⟩
  · have h1 : r < (s.alloc ([] : Header)).1.cells.length := by
      have hlen : (s.alloc ([] : Header)).1.cells.length = s.cells.length + 1 := by
        simp [Store.alloc]
      omega
    exact (read_alloc (s.alloc []).1 _ r h1).trans (read_alloc s [] r hr)
  · have h1 : r < (s.alloc ([] : Header)).1.cells.length := by
      have hlen : (s.alloc ([] : Header)).1.cells.length = s.cells.length + 1 := by
        simp [Store.alloc]
      omega
    exact (read_alloc (s.alloc []).1 _ r h1).trans (read_alloc s [] r hr)
  · exact read_alloc s _ r hr
  · exact read_alloc s _ r hr
  · unfold navSetRequestHeader
    cases n.path.getLast? <;> rfl
  · unfold navAddRequestHeader
    cases n.path.getLast? <;> rfl
  · intro op hop
    constructor
    · intro r' hne
      simp only [navSetRequestHeader, hop, Store.write, Store.read,
        List.getD_eq_getElem?_getD]
      rw [List.getElem?_set_ne (fun h => hne h.symm)]
    · intro hlt
      simp only [navSetRequestHeader, hop, Store.write, Store.read,
        List.getD_eq_getElem?_getD]
      rw [List.getElem?_set_self hlt]
      rfl

/-- Witness for C9 (amended): concrete instantiation on the
counterexample scenario's store. -/
theorem c9_header_scoping_witness :
    (navSetSessionHeader cex2.1 cex1.2 "X-Test" "v").1.read 1 = cex2.1.read 1
    ∧ (navSetRequestHeader cex2.1 cex1.2 "X-Test" "v").2 = cex1.2 :=
  ⟨((c9_header_scoping cex2.1 cex1.2 "X-Test" "v" "z" [] 1 (by decide)).1).2.2.1,
   ((c9_header_scoping cex2.1 cex1.2 "X-Test" "v" "z" [] 1 (by decide)).2).1.1⟩

/-- C10: on a navigator with an empty path, all four per-step header
setters return the store and the navigator — root URI, path, session
headers and client — completely unchanged: no header recorded, no error
signalled. -/
theorem c10_empty_path_noop (s : Store) (n : Nav) (k v : String)
    (hpath : n.path = []) :
    navSetRequestHeader s n k v = (s, n)
    ∧ navAddRequestHeader s n k v = (s, n)
    ∧ navSetFollowHeader s n k v = (s, n)
    ∧ navAddFollowHeader s n k v = (s, n) := by
  have hlast : n.path.getLast? = none := by simp [hpath]
  exact ⟨by simp only [navSetRequestHeader, hlast],
         by simp only [navAddRequestHeader, hlast],
         by simp only [navSetFollowHeader, hlast],
         by simp only [navAddFollowHeader, hlast]⟩

/-- Witness for C10: a freshly constructed navigator (empty path) is
returned untouched by `SetRequestHeader`. -/
theorem c10_witness :
    navSetRequestHeader cex0.1 cex0.2 "X-Test" "v" = (cex0.1, cex0.2) :=
  (c10_empty_path_noop cex0.1 cex0.2 "X-Test" "v" rfl).1

end Halgo
